import Mathlib

/-!
Shallow embedding of the ndsutils core (src/src/main.rs): the NDS blowfish
block transform, the per-title key-schedule derivation, the cartridge header
decoder, the ARM9 boot-code extractor and the secure-area CRC validator.
Machine integers are modelled as Nat with explicit masking / wrap-around where
the Rust code relies on u32 semantics; fallible operations (panicking asserts,
unwraps on short reads) return Except over an error type.
-/

namespace NDSUtils

/-- Error kinds of the pipeline, one per distinct failure site of the source:
`read_*::<LittleEndian>().unwrap()` / `read_exact(..).unwrap()` on a short
source, the `assert!(hdr.arm9off == 0x4000)` layout check, and the
out-of-bounds `contents[0]` index on an empty boot-code vector. -/
inductive NDSError where
  | truncatedInput : NDSError
  | unsupportedLayout : NDSError
  | indexOutOfBounds : NDSError
  deriving DecidableEq

/-- Body of the round loop of `blowfish_nds` (src/src/main.rs lines 92-100):
`z = kbuf[i] ^ x`, four S-box lookups rebuilding `x` (wrapping adds modelled
as `% 2^32`), `x = y ^ x`, `y = z`. State is the pair `(x, y)`. -/
def feistelRound (kbuf : List Nat) (xy : Nat × Nat) (i : Nat) : Nat × Nat :=
  let z := (kbuf.getD i 0) ^^^ xy.1
  let x1 := kbuf.getD (0x12 + ((z >>> 24) &&& 0xFF)) 0
  let x2 := ((kbuf.getD (0x112 + ((z >>> 16) &&& 0xFF)) 0) + x1) % 4294967296
  let x3 := (kbuf.getD (0x212 + ((z >>> 8) &&& 0xFF)) 0) ^^^ x2
  let x4 := ((kbuf.getD (0x312 + ((z >>> 0) &&& 0xFF)) 0) + x3) % 4294967296
  (xy.2 ^^^ x4, z)

/-- Embedding of `blowfish_nds` (src/src/main.rs lines 81-111): split the
64-bit block into low half `x` and high half `y`; iterate the Feistel round
over indices `0..16` when encrypting and `(2..18).rev()` when decrypting;
apply the direction-dependent final XORs (`y ^= kbuf[16]; x ^= kbuf[17]` when
encrypting, `y ^= kbuf[1]; x ^= kbuf[0]` when decrypting); reassemble as
`y | (x << 32)`. -/
def blowfish_nds (v : Nat) (kbuf : List Nat) (enc : Bool) : Nat :=
  let x := v &&& 0xFFFFFFFF
  let y := (v >>> 32) &&& 0xFFFFFFFF
  let iter : List Nat := if enc then List.range' 0 16 1 else (List.range' 2 16 1).reverse
  let xy := iter.foldl (feistelRound kbuf) (x, y)
  let fin := if enc then (xy.1 ^^^ kbuf.getD 17 0, xy.2 ^^^ kbuf.getD 16 0)
             else (xy.1 ^^^ kbuf.getD 0 0, xy.2 ^^^ kbuf.getD 1 0)
  fin.2 ||| (fin.1 <<< 32)

/-- A concrete 1042-word key table: all entries zero except entry 16 = 1.
Used as an explicit counterexample input. -/
def ktOne : List Nat := (List.replicate 1042 0).set 16 1

set_option maxRecDepth 100000

/-- A concrete all-zero 1042-word key table, used as an explicit input. -/
def ktZero : List Nat := List.replicate 1042 0

/-- Embedding of `u32::swap_bytes` on a 32-bit word. -/
def swap32 (v : Nat) : Nat :=
  ((v &&& 0xFF) <<< 24) ||| ((v &&& 0xFF00) <<< 8) ||| ((v >>> 8) &&& 0xFF00) |||
    ((v >>> 24) &&& 0xFF)

/-- Phase 1 of `apply_keycode` (src/src/main.rs lines 117-123): the two
overlapping 64-bit views of the keycode array. `tk1ptr` covers words 1 (low)
and 2 (high) of `tk` on the little-endian layout, `tk0ptr` covers words 0
(low) and 1 (high); each view is encrypted in place, the second encryption
seeing the low half of the first result in `tk[1]`. -/
def applyKeycodeEncryptTK (tk : List Nat) (kbuf : List Nat) : List Nat :=
  let b1 := (tk.getD 1 0) ||| ((tk.getD 2 0) <<< 32)
  let r1 := blowfish_nds b1 kbuf true
  let tk1 := (tk.set 1 (r1 &&& 0xFFFFFFFF)).set 2 ((r1 >>> 32) &&& 0xFFFFFFFF)
  let b0 := (tk1.getD 0 0) ||| ((tk1.getD 1 0) <<< 32)
  let r0 := blowfish_nds b0 kbuf true
  (tk1.set 0 (r0 &&& 0xFFFFFFFF)).set 1 ((r0 >>> 32) &&& 0xFFFFFFFF)

/-- Body of the phase-2 loop of `apply_keycode` (src/src/main.rs line 126):
`kbuf[i] = kbuf[i] ^ kbuf[i % 2].swap_bytes();`. Note the source XORs with the
byte-swapped current key-table entry `kbuf[i % 2]`, not with a keycode word;
the statement does not touch `tk` at all. -/
def keycodeXorStep (kb : List Nat) (i : Nat) : List Nat :=
  kb.set i ((kb.getD i 0) ^^^ swap32 (kb.getD (i % 2) 0))

/-- Phase 2 of `apply_keycode` (src/src/main.rs lines 125-127): the loop
`for i in 0..12` over `keycodeXorStep`. -/
def applyKeycodeXorLoop (kbuf : List Nat) : List Nat :=
  (List.range 12).foldl keycodeXorStep kbuf

/-- Body of the phase-3 loop of `apply_keycode` (src/src/main.rs lines
130-132): re-encrypt the persistent scratch block with the current table and
store its high half into `kbuf[i]`, its low half into `kbuf[i+1]`. State is
the pair (scratch, kbuf). -/
def scheduleStep (skb : Nat × List Nat) (i : Nat) : Nat × List Nat :=
  let scratch := blowfish_nds skb.1 skb.2 true
  (scratch,
    (skb.2.set i ((scratch >>> 32) &&& 0xFFFFFFFF)).set (i + 1)
      (scratch &&& 0xFFFFFFFF))

/-- Phase 3 of `apply_keycode` (src/src/main.rs lines 129-133): the loop over
the even indices `(0..131).step_by(2)`, i.e. `{0, 2, ..., 130}`, starting
from a zero scratch block. -/
def applyKeycodeScheduleLoop (kbuf : List Nat) : Nat × List Nat :=
  (List.range' 0 66 2).foldl scheduleStep (0, kbuf)

/-- Embedding of `apply_keycode` (src/src/main.rs lines 116-134): the three
phases in source order; returns the final (tk, kbuf) pair. -/
def apply_keycode (tk : List Nat) (kbuf : List Nat) : List Nat × List Nat :=
  let tk1 := applyKeycodeEncryptTK tk kbuf
  let kb1 := applyKeycodeXorLoop kbuf
  (tk1, (applyKeycodeScheduleLoop kb1).2)

/-- Embedding of the packed `NDSCartridgeHeader` record (src/src/main.rs lines
46-63); single-byte fields are held as Nat, byte-array fields as lists. -/
structure NDSCartridgeHeader where
  gametitle : List Nat
  gamecode : Nat
  makercode : Nat
  unitcode : Nat
  encrseedsel : Nat
  devicecaps : Nat
  res0 : List Nat
  ndsregion : Nat
  romversion : Nat
  autostart : Nat
  arm9off : Nat
  arm9entry : Nat
  arm9raddr : Nat
  arm9size : Nat
  deriving DecidableEq

/-- Value of a little-endian word given its list of bytes (least significant
first), as produced by `byteorder::ReadBytesExt`. -/
def leWord (bytes : List Nat) : Nat := bytes.foldr (fun b acc => b + acc * 256) 0

/-- Reading `count` consecutive little-endian words of `width` bytes from the
front of a byte source, as the `read_u32`/`read_u64` loops do; `none` models
the `unwrap` panic when the source runs out mid-read. -/
def readLEWords (width : Nat) (bytes : List Nat) : Nat → Option (List Nat)
  | 0 => some []
  | n + 1 =>
    if width ≤ bytes.length then
      match readLEWords width (bytes.drop width) n with
      | some ws => some (leWord (bytes.take width) :: ws)
      | none => none
    else none

/-- Embedding of `NDSCartridgeHeader::parse_nds` (src/src/main.rs lines
66-78): seek to offset 0 and copy exactly 48 bytes (the packed struct size)
into the record, the fields lying at their packed byte offsets; a source
shorter than the struct makes `read_exact` fail (`TruncatedInput`). -/
def NDSCartridgeHeader.parse_nds (cart : List Nat) : Except NDSError NDSCartridgeHeader :=
  if 48 ≤ cart.length then
    .ok
      { gametitle := cart.take 12
        gamecode := leWord ((cart.drop 12).take 4)
        makercode := leWord ((cart.drop 16).take 2)
        unitcode := cart.getD 18 0
        encrseedsel := cart.getD 19 0
        devicecaps := cart.getD 20 0
        res0 := (cart.drop 21).take 8
        ndsregion := cart.getD 29 0
        romversion := cart.getD 30 0
        autostart := cart.getD 31 0
        arm9off := leWord ((cart.drop 32).take 4)
        arm9entry := leWord ((cart.drop 36).take 4)
        arm9raddr := leWord ((cart.drop 40).take 4)
        arm9size := leWord ((cart.drop 44).take 4) }
  else .error .truncatedInput

/-- Embedding of the `ARM9Bootcode` record (src/src/main.rs lines 14-18). -/
structure ARM9Bootcode where
  raw_data : List Nat
  secure_area_present : Bool
  secure_area_encrypted : Bool
  deriving DecidableEq

/-- Embedding of `ARM9Bootcode::new` (src/src/main.rs lines 21-43): the
`assert!(hdr.arm9off == 0x4000)` layout check (its panic modelled as
`unsupportedLayout`), the seek to `arm9off` followed by `arm9size` `read_u64`
calls (a short source modelled as `truncatedInput`), the `contents[0]`
access (out of bounds on an empty vector), and the two derived flags. -/
def ARM9Bootcode.new (nds : List Nat) (hdr : NDSCartridgeHeader) :
    Except NDSError ARM9Bootcode :=
  if hdr.arm9off = 0x4000 then
    match readLEWords 8 (nds.drop hdr.arm9off) hdr.arm9size with
    | none => .error .truncatedInput
    | some contents =>
      match contents.head? with
      | none => .error .indexOutOfBounds
      | some w0 =>
        .ok
          { raw_data := contents
            secure_area_present := decide (0x4000 ≤ hdr.arm9off ∧ hdr.arm9off < 0x8000)
            secure_area_encrypted := decide (w0 ≠ 0xE7FFDEFFE7FFDEFF) }
  else .error .unsupportedLayout

/-- Embedding of `load_encr_data` (src/src/main.rs lines 136-148): seek to
offset 0 and read 1042 little-endian 32-bit words; a source with fewer words
makes the `read_u32` `unwrap` fail (`TruncatedInput`). -/
def load_encr_data (encr_data : List Nat) : Except NDSError (List Nat) :=
  match readLEWords 4 encr_data 1042 with
  | some ws => .ok ws
  | none => .error .truncatedInput

/-- Embedding of `check_secure_area_crc` (src/src/main.rs lines 154-159).
The `assert!(sec_area_slice.len() == 0x7F0)` panic is modelled as `none`.
Modelled from the spec: `bios_get_crc16` lives in the module `crc` whose
source is not part of the repository snapshot; the spec treats it as an
opaque total function from byte sequences to a 16-bit value, so it is taken
here as an arbitrary function parameter. -/
def check_secure_area_crc (bios_get_crc16 : List Nat → Nat) (crc : Nat)
    (sec_area_slice : List Nat) : Option (Bool × Nat) :=
  if sec_area_slice.length = 0x7F0 then
    let crc_correct := bios_get_crc16 sec_area_slice
    some (decide (crc_correct = crc), crc_correct)
  else none

/-- S-box mixing step as the spec describes it (section 4.3): the four bytes
of `z`, most significant first, select from S-boxes 0..3 (table regions at
word offsets 0x12, 0x112, 0x212, 0x312) combined by lookup, wrapping
addition, XOR, wrapping addition. -/
def sboxMixSpec (kbuf : List Nat) (z : Nat) : Nat :=
  let s0 := kbuf.getD (0x12 + ((z >>> 24) &&& 0xFF)) 0
  let s1 := (kbuf.getD (0x112 + ((z >>> 16) &&& 0xFF)) 0 + s0) % 4294967296
  let s2 := kbuf.getD (0x212 + ((z >>> 8) &&& 0xFF)) 0 ^^^ s1
  (kbuf.getD (0x312 + (z &&& 0xFF)) 0 + s2) % 4294967296

/-- One Feistel round as the spec describes it (section 4.3), taking the
round subkey as a value: `z = subkey XOR x`, rebuild `x` from the S-box
mixing of `z` XORed with `y`, and the Feistel swap `y = z`. -/
def feistelRoundSpec (kbuf : List Nat) (xy : Nat × Nat) (p : Nat) : Nat × Nat :=
  let z := p ^^^ xy.1
  (xy.2 ^^^ sboxMixSpec kbuf z, z)

/-- Block transform as the spec describes it (claim C2 / section 4.3):
encrypting folds the Feistel round over the P-array entries at indices
0..16 in ascending order as round subkeys; decrypting folds over the entries
at indices {17,16,...,2} in descending order; then `y` is XORed with
P-array[16] and `x` with P-array[17] when encrypting, `y` with P-array[1]
and `x` with P-array[0] when decrypting; the block is reassembled with `y`
in the low 32 bits and `x` in the high 32 bits. -/
def blowfishSpecDesc (v : Nat) (kbuf : List Nat) (enc : Bool) : Nat :=
  let x := v &&& 0xFFFFFFFF
  let y := (v >>> 32) &&& 0xFFFFFFFF
  let subkeys : List Nat :=
    if enc then (List.range' 0 16 1).map (fun i => kbuf.getD i 0)
    else ((List.range' 2 16 1).reverse).map (fun i => kbuf.getD i 0)
  let xy := subkeys.foldl (feistelRoundSpec kbuf) (x, y)
  let yf := if enc then xy.2 ^^^ kbuf.getD 16 0 else xy.2 ^^^ kbuf.getD 1 0
  let xf := if enc then xy.1 ^^^ kbuf.getD 17 0 else xy.1 ^^^ kbuf.getD 0 0
  yf ||| (xf <<< 32)

/-- A concrete header whose boot-code offset 0x5000 differs from 0x4000. -/
def hdrOffBad : NDSCartridgeHeader := ⟨[], 0, 0, 0, 0, 0, [], 0, 0, 0, 0x5000, 0, 0, 1⟩

/-- A concrete header with boot-code offset exactly 0x4000 and word count 1. -/
def hdrOffGood : NDSCartridgeHeader := ⟨[], 0, 0, 0, 0, 0, [], 0, 0, 0, 0x4000, 0, 0, 1⟩

/-- A concrete header with boot-code offset 0x4000 and word count 0. -/
def hdrSizeZero : NDSCartridgeHeader := ⟨[], 0, 0, 0, 0, 0, [], 0, 0, 0, 0x4000, 0, 0, 0⟩

/-- A concrete header with boot-code offset 0x3000, below the secure-area
range and outside the supported layout. -/
def hdrOff3000 : NDSCartridgeHeader := ⟨[], 0, 0, 0, 0, 0, [], 0, 0, 0, 0x3000, 0, 0, 1⟩

/-- Eight bytes encoding the little-endian 64-bit word 1. -/
def bootTail : List Nat := [1, 0, 0, 0, 0, 0, 0, 0]

/-- A concrete cartridge image: 0x4000 zero bytes of padding followed by one
64-bit boot-code word equal to 1. -/
def src4000 : List Nat := List.replicate 0x4000 0 ++ bootTail

/-- A concrete stand-in for the external CRC16 function: constantly zero. -/
def crcZero : List Nat → Nat := fun _ => 0

/-- A concrete secure-area slice of exactly 0x7F0 zero bytes. -/
def slice7F0 : List Nat := List.replicate 0x7F0 0

/-! Helper lemmas. -/

theorem feistelRound_eq_spec (kbuf : List Nat) (xy : Nat × Nat) (i : Nat) :
    feistelRound kbuf xy i = feistelRoundSpec kbuf xy (kbuf.getD i 0) := rfl

theorem readLEWords_eq_none (width : Nat) (hw : 0 < width) :
    ∀ (n : Nat) (bytes : List Nat), bytes.length / width < n →
      readLEWords width bytes n = none := by
  intro n
  induction n with
  | zero => intro bytes h; exact absurd h (Nat.not_lt_zero _)
  | succ n ih =>
    intro bytes h
    rw [readLEWords]
    split
    · rename_i hle
      have heq := Nat.div_eq_sub_div hw hle
      have h3 : (bytes.length - width) / width + 1 < n + 1 := by rw [← heq]; exact h
      have h2 : (bytes.drop width).length / width < n := by
        rw [List.length_drop]
        exact Nat.lt_of_succ_lt_succ h3
      rw [ih (bytes.drop width) h2]
    · rfl

theorem foldl_xorStep_frame (j : Nat) (hj : 132 ≤ j) :
    ∀ (l : List Nat) (kbuf : List Nat), (∀ i ∈ l, i < 132) →
      (l.foldl keycodeXorStep kbuf)[j]? = kbuf[j]? := by
  intro l
  induction l with
  | nil => intro kbuf _; rfl
  | cons a t ih =>
    intro kbuf h
    rw [List.foldl_cons, ih _ (fun i hi => h i (List.mem_cons_of_mem a hi))]
    have ha := h a (List.mem_cons_self a t)
    exact List.getElem?_set_ne (by omega)

theorem foldl_scheduleStep_frame (j : Nat) (hj : 132 ≤ j) :
    ∀ (l : List Nat) (skb : Nat × List Nat), (∀ i ∈ l, i + 1 < 132) →
      ((l.foldl scheduleStep skb).2)[j]? = skb.2[j]? := by
  intro l
  induction l with
  | nil => intro skb _; rfl
  | cons a t ih =>
    intro skb h
    rw [List.foldl_cons, ih _ (fun i hi => h i (List.mem_cons_of_mem a hi))]
    have ha := h a (List.mem_cons_self a t)
    show ((skb.2.set a ((blowfish_nds skb.1 skb.2 true >>> 32) &&& 0xFFFFFFFF)).set (a + 1)
        (blowfish_nds skb.1 skb.2 true &&& 0xFFFFFFFF))[j]? = skb.2[j]?
    rw [List.getElem?_set_ne (by omega), List.getElem?_set_ne (by omega)]

theorem new_src4000 : ARM9Bootcode.new src4000 hdrOffGood = .ok ⟨[1], true, true⟩ := by
  have hdrop : (List.replicate 0x4000 (0 : Nat) ++ bootTail).drop 0x4000 = bootTail :=
    List.drop_left' (List.length_replicate 0x4000 0)
  show ARM9Bootcode.new (List.replicate 0x4000 (0 : Nat) ++ bootTail) hdrOffGood = _
  unfold ARM9Bootcode.new
  rw [show hdrOffGood.arm9off = 0x4000 from rfl, hdrop]
  rfl

/-! Claim theorems. -/

/-- C1: the claim states that for every 64-bit block and valid 1042-word key
table, the decrypt direction inverts the encrypt direction. The code refutes
it: on the 1042-word table that is zero except for entry 16 = 1, decrypting
the encryption of the block 0 yields 0x100000001, not 0. The encrypt
direction XORs `kbuf[17]` into the half that ends up high while the decrypt
direction consumes `kbuf[17]` against the half it reads from the low bits,
so the final XOR layers do not cancel. -/
theorem blowfish_roundtrip_fails_on_ktOne :
    blowfish_nds (blowfish_nds 0 ktOne true) ktOne false = 0x100000001 ∧
    blowfish_nds (blowfish_nds 0 ktOne true) ktOne false ≠ 0 :=
  ⟨by decide, by decide⟩

/-- C2: the block transform runs the 16 Feistel rounds over P-array entries
0..16 (half-open, entries 0 to 15) in ascending order when encrypting and
over rounds indexed {17,...,2} in descending order when decrypting, then
XORs `y` with P-array[16] and `x` with P-array[17] (encrypt) or `y` with
P-array[1] and `x` with P-array[0] (decrypt), and reassembles the block with
`y` in the low 32 bits and `x` in the high 32 bits: the code equals the
direction description `blowfishSpecDesc` written from the spec's words. -/
theorem blowfish_direction_structure (v : Nat) (kbuf : List Nat) (enc : Bool) :
    blowfish_nds v kbuf enc = blowfishSpecDesc v kbuf enc := by
  have hfun : (fun (xy : Nat × Nat) (i : Nat) => feistelRoundSpec kbuf xy (kbuf.getD i 0))
      = feistelRound kbuf := by
    funext xy i
    exact (feistelRound_eq_spec kbuf xy i).symm
  cases enc <;>
    simp only [blowfish_nds, blowfishSpecDesc, Bool.false_eq_true, ite_true, ite_false,
      if_true, if_false, List.foldl_map, hfun]

/-- C3: the claim states that after the two initial block-cipher
applications, entry `i` of the key table (for `i < 12`) becomes
`old KeyTable[i] XOR byteswap(keycode[i mod 2])`. The code instead XORs with
`byteswap(kbuf[i mod 2])`, the key table's own (already updated) entry.
Evaluated at the failing input `tk = [0,0,1]`, `kbuf = ktZero` (all-zero
table): after the two encryptions the keycode is `[1,0,0]`, so the claim
predicts `KeyTable[0] = 0 XOR byteswap(1) = 0x01000000`, but the code's XOR
loop leaves the all-zero table unchanged, giving `KeyTable[0] = 0`. -/
theorem keycode_xor_loop_divergence :
    (applyKeycodeEncryptTK [0, 0, 1] ktZero).getD 0 0 = 1 ∧
    (ktZero.getD 0 0) ^^^ swap32 ((applyKeycodeEncryptTK [0, 0, 1] ktZero).getD 0 0)
      = 0x01000000 ∧
    (applyKeycodeXorLoop ktZero).getD 0 0 = 0 :=
  ⟨by decide, by decide, by decide⟩

/-- C4 counterexample: the claim states the schedule-derivation step neither
reads keycode word 2 as cipher input nor writes it back. On `tk = [0,0,1]`
with the all-zero key table, `apply_keycode` returns a keycode whose word 2
is 0, although it was 1 on entry: word 2 was overwritten (and, being the
high half of the first 64-bit block, also read). -/
theorem keycode_word2_written :
    ((apply_keycode [0, 0, 1] ktZero).1).getD 2 0 = 0 ∧
    (([0, 0, 1] : List Nat).getD 2 0 = 1) :=
  ⟨by decide, by decide⟩

/-- C4 amended: the schedule-derivation step treats keycode words (1, 2) and
then (0, 1) as two overlapping little-endian 64-bit blocks: it first
encrypts `tk[1] | tk[2] << 32`, writing the low half to word 1 and the high
half to word 2, then encrypts `tk[0] | tk[1] << 32` (with the just-written
word 1), writing the low half to word 0 and the high half to word 1. Word 2
is both read (as cipher input) and written. -/
theorem apply_keycode_overlapping_blocks (t0 t1 t2 : Nat) (kbuf : List Nat) :
    (apply_keycode [t0, t1, t2] kbuf).1 =
      [blowfish_nds
          (t0 ||| (((blowfish_nds (t1 ||| (t2 <<< 32)) kbuf true) &&& 0xFFFFFFFF) <<< 32))
          kbuf true &&& 0xFFFFFFFF,
        (blowfish_nds
          (t0 ||| (((blowfish_nds (t1 ||| (t2 <<< 32)) kbuf true) &&& 0xFFFFFFFF) <<< 32))
          kbuf true >>> 32) &&& 0xFFFFFFFF,
        (blowfish_nds (t1 ||| (t2 <<< 32)) kbuf true >>> 32) &&& 0xFFFFFFFF] := rfl

/-- C5 counterexample: the claim's parenthetical says a header offset of
0x3000 reports `secure_area_present == false`; in the code such a header
never reports anything: the extractor's `assert!(hdr.arm9off == 0x4000)`
fires (modelled as the `unsupportedLayout` error) and no `ARM9Bootcode`
value is constructed. -/
theorem offset3000_rejected_not_reported :
    hdrOff3000.arm9off = 0x3000 ∧
    ARM9Bootcode.new (List.replicate 0x8000 0) hdrOff3000 =
      .error .unsupportedLayout :=
  ⟨rfl, rfl⟩

/-- C5 amended: for every header and source accepted by the extractor, the
constructed `ARM9Bootcode` has `secure_area_present` true exactly when the
boot-code offset lies in [0x4000, 0x8000) — always true, since only offset
0x4000 is accepted — and `secure_area_encrypted` true exactly when the
first 64-bit word differs from the sentinel 0xE7FFDEFFE7FFDEFF; an offset
of 0x3000 is rejected with an error and produces no report at all. -/
theorem bootcode_flag_classification (nds : List Nat) (hdr : NDSCartridgeHeader)
    (bc : ARM9Bootcode) (h : ARM9Bootcode.new nds hdr = .ok bc) :
    bc.secure_area_present = decide (0x4000 ≤ hdr.arm9off ∧ hdr.arm9off < 0x8000) ∧
    bc.secure_area_present = true ∧
    bc.secure_area_encrypted = decide (bc.raw_data.getD 0 0 ≠ 0xE7FFDEFFE7FFDEFF) := by
  unfold ARM9Bootcode.new at h
  split at h
  case isFalse => exact absurd h (by simp)
  case isTrue hoff =>
    split at h
    · exact absurd h (by simp)
    · rename_i contents heq
      split at h
      · exact absurd h (by simp)
      · rename_i w0 hw0
        injection h with hbc
        subst hbc
        refine ⟨rfl, ?_, ?_⟩
        · show decide (0x4000 ≤ hdr.arm9off ∧ hdr.arm9off < 0x8000) = true
          rw [hoff]
          decide
        · show decide (w0 ≠ 0xE7FFDEFFE7FFDEFF)
            = decide (contents.getD 0 0 ≠ 0xE7FFDEFFE7FFDEFF)
          cases contents with
          | nil => exact absurd hw0 (by simp)
          | cons c cs =>
            have : c = w0 := by simpa [List.head?] using hw0
            subst this
            rfl

/-- C5 amended, witness at a concrete accepted input. -/
theorem bootcode_flag_classification_witness :
    (⟨[1], true, true⟩ : ARM9Bootcode).secure_area_present
        = decide (0x4000 ≤ hdrOffGood.arm9off ∧ hdrOffGood.arm9off < 0x8000) ∧
    (⟨[1], true, true⟩ : ARM9Bootcode).secure_area_present = true ∧
    (⟨[1], true, true⟩ : ARM9Bootcode).secure_area_encrypted
        = decide ((⟨[1], true, true⟩ : ARM9Bootcode).raw_data.getD 0 0 ≠ 0xE7FFDEFFE7FFDEFF) :=
  bootcode_flag_classification src4000 hdrOffGood ⟨[1], true, true⟩ new_src4000

/-- C6: a header whose boot-code offset differs from 0x4000 is rejected (the
layout assertion fires, modelled as the `unsupportedLayout` error) and no
boot code is produced, while a header with offset exactly 0x4000 never
produces that error — the extractor proceeds to read the boot code. -/
theorem bootcode_offset_restriction (nds : List Nat) (hdr : NDSCartridgeHeader) :
    (hdr.arm9off ≠ 0x4000 →
      ARM9Bootcode.new nds hdr = .error .unsupportedLayout) ∧
    (hdr.arm9off = 0x4000 →
      ARM9Bootcode.new nds hdr ≠ .error .unsupportedLayout) := by
  constructor
  · intro hne
    unfold ARM9Bootcode.new
    rw [if_neg hne]
  · intro heq
    unfold ARM9Bootcode.new
    rw [if_pos heq]
    split
    · simp
    · split <;> simp

/-- C6 witness at concrete headers: offset 0x5000 is rejected with
`unsupportedLayout`; offset 0x4000 never yields that error. -/
theorem bootcode_offset_restriction_witness :
    ARM9Bootcode.new [] hdrOffBad = .error .unsupportedLayout ∧
    ARM9Bootcode.new [] hdrOffGood ≠ .error .unsupportedLayout :=
  ⟨(bootcode_offset_restriction [] hdrOffBad).1 (by decide),
    (bootcode_offset_restriction [] hdrOffGood).2 (by decide)⟩

/-- C7: a byte source shorter than the required length makes each component
fail with the `truncatedInput` error: the key-table loader when fewer than
1042 32-bit words are available (source shorter than 4168 bytes), the header
decoder when the source is shorter than the 48-byte packed header, and the
boot-code extractor when fewer 64-bit words are available past offset 0x4000
than the header's declared word count. -/
theorem truncated_input_errors (bytes : List Nat) (hdr : NDSCartridgeHeader) :
    (bytes.length < 4168 → load_encr_data bytes = .error .truncatedInput) ∧
    (bytes.length < 48 → NDSCartridgeHeader.parse_nds bytes = .error .truncatedInput) ∧
    (hdr.arm9off = 0x4000 → (bytes.length - 0x4000) / 8 < hdr.arm9size →
      ARM9Bootcode.new bytes hdr = .error .truncatedInput) := by
  refine ⟨?_, ?_, ?_⟩
  · intro hlen
    unfold load_encr_data
    rw [readLEWords_eq_none 4 (by omega) 1042 bytes
      ((Nat.div_lt_iff_lt_mul (by omega)).2 (by omega))]
  · intro hlen
    unfold NDSCartridgeHeader.parse_nds
    rw [if_neg (by omega)]
  · intro hoff hwords
    unfold ARM9Bootcode.new
    rw [if_pos hoff, readLEWords_eq_none 8 (by omega) hdr.arm9size (bytes.drop hdr.arm9off)
      (by rw [List.length_drop, hoff]; exact hwords)]

/-- C7 witness: the empty byte source is rejected with `truncatedInput` by
all three components (for the extractor, under a header declaring one word
at offset 0x4000). -/
theorem truncated_input_errors_witness :
    load_encr_data [] = .error .truncatedInput ∧
    NDSCartridgeHeader.parse_nds [] = .error .truncatedInput ∧
    ARM9Bootcode.new [] hdrOffGood = .error .truncatedInput :=
  ⟨(truncated_input_errors [] hdrOffGood).1 (by decide),
    (truncated_input_errors [] hdrOffGood).2.1 (by decide),
    (truncated_input_errors [] hdrOffGood).2.2 (by decide) (by decide)⟩

/-- C8: the checksum validator is fatal (the length assertion, modelled as
`none`) on every slice whose length differs from 0x7F0 bytes, and on every
slice of exactly 0x7F0 bytes it always returns the pair of the match boolean
and the recomputed CRC — a mismatch being a reportable outcome, not a
failure. The external CRC16 routine is an arbitrary total function. -/
theorem crc_validator_domain (f : List Nat → Nat) (crc : Nat) (s : List Nat) :
    (s.length ≠ 0x7F0 → check_secure_area_crc f crc s = none) ∧
    (s.length = 0x7F0 → ∃ b c, check_secure_area_crc f crc s = some (b, c) ∧
      (b = true ↔ c = crc)) := by
  constructor
  · intro hne
    unfold check_secure_area_crc
    rw [if_neg hne]
  · intro heq
    unfold check_secure_area_crc
    rw [if_pos heq]
    exact ⟨_, _, rfl, by simp⟩

/-- C8 witness: with the constant-zero CRC stand-in, the empty slice is
rejected and a 0x7F0-byte slice yields a result pair. -/
theorem crc_validator_domain_witness :
    check_secure_area_crc crcZero 0 [] = none ∧
    (∃ b c, check_secure_area_crc crcZero 0 slice7F0 = some (b, c) ∧
      (b = true ↔ c = 0)) :=
  ⟨(crc_validator_domain crcZero 0 []).1 (by decide),
    (crc_validator_domain crcZero 0 slice7F0).2
      (by rw [slice7F0, List.length_replicate])⟩

/-- C9: a header declaring a boot-code word count of 0 (with the accepted
offset 0x4000) makes the extractor fatal: the `contents[0]` access used to
compute `secure_area_encrypted` indexes an empty vector (modelled as the
`indexOutOfBounds` error) and no `ARM9Bootcode` value is produced. -/
theorem bootcode_empty_fatal (nds : List Nat) (hdr : NDSCartridgeHeader)
    (hoff : hdr.arm9off = 0x4000) (hsz : hdr.arm9size = 0) :
    ARM9Bootcode.new nds hdr = .error .indexOutOfBounds := by
  unfold ARM9Bootcode.new
  rw [if_pos hoff, hsz]
  rfl

/-- C9 witness at a concrete zero-word header. -/
theorem bootcode_empty_fatal_witness :
    ARM9Bootcode.new [] hdrSizeZero = .error .indexOutOfBounds :=
  bootcode_empty_fatal [] hdrSizeZero (by decide) (by decide)

/-- C10: key-schedule derivation only writes key-table entries at indices
0 through 131; every entry at an index of 132 or more is unchanged by
`apply_keycode`. -/
theorem apply_keycode_frame (tk kbuf : List Nat) (j : Nat) (hj : 132 ≤ j) :
    ((apply_keycode tk kbuf).2)[j]? = kbuf[j]? := by
  simp only [apply_keycode, applyKeycodeScheduleLoop]
  rw [foldl_scheduleStep_frame j hj _ _ ?hsched]
  case hsched =>
    intro i hi
    rw [List.mem_range'] at hi
    obtain ⟨k, hk, hik⟩ := hi
    omega
  simp only [applyKeycodeXorLoop]
  refine foldl_xorStep_frame j hj _ _ ?_
  intro i hi
  rw [List.mem_range] at hi
  omega

/-- C10 witness at a concrete table and index 132. -/
theorem apply_keycode_frame_witness :
    ((apply_keycode [0, 0, 1] ktZero).2)[132]? = ktZero[132]? :=
  apply_keycode_frame [0, 0, 1] ktZero 132 (by decide)

end NDSUtils
